import Mathlib

/-!
Shallow embedding of the SignZero opinion contract
(source: smart_contracts/sign_zero/contract.algo.ts, the variant with
eligibility gates) together with the packed uint64 gate-list codec from
signzero-frontend/src/utils/gates.ts.

Modelling conventions:
- AVM byte strings are Lean lists of byte values (Nat), addresses are Nat
  (0 is the null/zero account), asset ids and round numbers are Nat.
- Each contract method is a total Lean function returning Except Err; an
  AVM assert failure, a read of an unset global slot, a missing box or
  asset, or a uint64 overflow is an error result.  The ledger commits a
  call only on an ok result, so an aborting call never changes state;
  the Step relation below builds exactly that transactional semantics in.
- Error constructors mirror the assert messages of the source one to one.
-/

namespace SignZero

/-- Errors: one constructor per assert message of the contract, plus the
runtime failure modes of the AVM (wrong transaction type in the group,
reading an unset global slot, missing asset or box, out of range box
write, uint64 overflow and underflow). -/
inductive Err
  | alreadyInitialized
  | expectedPaymentAndAppCall
  | paymentMustGoToApp
  | minimumFunding
  | minimumDuration
  | titleEmpty
  | titleTooLong
  | textSizeZero
  | textTooLarge
  | opinionTypeNot32Bytes
  | opinionTypeEmpty
  | urlTooLong
  | notInitialized
  | alreadyFinalized
  | onlyAuthorCanWrite
  | onlyAuthorCanSetGates
  | gatesAlreadySet
  | mustEnableOneGate
  | asaHoldEmpty
  | asaHoldMisaligned
  | asaDenyEmpty
  | asaDenyMisaligned
  | nfdRootEmpty
  | opinionEnded
  | expectedAppCallAndOptIn
  | wrongAsset
  | amountNotZero
  | optInSenderMismatch
  | optInReceiverMismatch
  | onlyAuthorCanExtend
  | newEndNotGreater
  | stillActive
  | wrongTxnType
  | stateUnset
  | assetMissing
  | boxMissing
  | boxSizeMismatch
  | boxOutOfBounds
  | uint64Overflow
  | uint64Underflow
deriving DecidableEq, Repr

/-- Parameters of an Algorand standard asset, as configured by the
contract (itxn.assetConfig fields). -/
structure AssetParams where
  total : Nat
  decimals : Nat
  assetName : List Nat
  unitName : List Nat
  metadataHash : List Nat
  url : List Nat
  manager : Nat
  reserve : Nat
  freeze : Nat
  clawback : Nat
deriving DecidableEq, Repr

/-- The ledger asset table, newest entry first. -/
def AssetMap := List (Nat × AssetParams)
deriving DecidableEq

def assetLookup : List (Nat × AssetParams) → Nat → Option AssetParams
  | [], _ => none
  | (i, p) :: rest, a => if i = a then some p else assetLookup rest a

def assetSet (m : List (Nat × AssetParams)) (a : Nat) (p : AssetParams) :
    List (Nat × AssetParams) :=
  (a, p) :: m

/-- Global state and boxes of one SignZero application instance.
Scalar globals that the contract only writes after a guard are Option
valued: none models an unset slot (reading it aborts, as puya asserts
existence on GlobalState value reads). -/
structure ContractState where
  startRound : Option Nat
  endRound : Option Nat
  finalized : Bool
  asaId : Option Nat
  initialized : Bool
  gFlags : Option Nat
  gBalMin : Option Nat
  gBalMax : Option Nat
  gMinAge : Option Nat
  opinionText : Option (List Nat)
  gateHold : Option (List Nat)
  gateDeny : Option (List Nat)
  gateNfd : Option (List Nat)
deriving DecidableEq, Repr

/-- One application instance plus the asset table it interacts with. -/
structure Config where
  st : ContractState
  assets : List (Nat × AssetParams)
deriving DecidableEq, Repr

/-- A transaction in the atomic group, as inspected by the contract. -/
inductive GTxn
  | pay (sender receiver amount : Nat)
  | axfer (sender xferAsset assetAmount assetReceiver : Nat)
  | appl (sender : Nat)
  | other
deriving DecidableEq, Repr

/-- Inner transactions issued by the contract. -/
inductive Itxn
  | assetCreate (params : AssetParams)
  | assetConfig (configAsset manager reserve freeze clawback : Nat)
  | payment (receiver amount : Nat)
deriving DecidableEq, Repr

def MIN_FUNDING : Nat := 20000000

def MIN_DURATION : Nat := 25000

def UINT64_LIMIT : Nat := 2 ^ 64

/-- The fixed unit name ZERO as bytes. -/
def zeroUnitName : List Nat := [90, 69, 82, 79]

/-- An AVM assert: ok when the condition holds, abort otherwise. -/
def sassert (cond : Bool) (e : Err) : Except Err Unit :=
  if cond then .ok () else .error e

/-- Read a global uint64 slot; reading an unset slot aborts. -/
def gval : Option Nat → Except Err Nat
  | some v => .ok v
  | none => .error .stateUnset

/-- Asset lookup used by the reserve authority checks; a missing asset
aborts the call. -/
def getAsset (m : List (Nat × AssetParams)) (a : Nat) : Except Err AssetParams :=
  match assetLookup m a with
  | some p => .ok p
  | none => .error .assetMissing

/-- gtxn.PaymentTxn i: the group transaction at index i, which must be a
payment; yields (sender, receiver, amount). -/
def getPaymentTxn (g : List GTxn) (i : Nat) : Except Err (Nat × Nat × Nat) :=
  match g[i]? with
  | some (.pay s r a) => .ok (s, r, a)
  | _ => .error .wrongTxnType

/-- gtxn.AssetTransferTxn i: the group transaction at index i, which must
be an asset transfer; yields (sender, xferAsset, assetAmount, assetReceiver). -/
def getAssetTransferTxn (g : List GTxn) (i : Nat) : Except Err (Nat × Nat × Nat × Nat) :=
  match g[i]? with
  | some (.axfer s x amt r) => .ok (s, x, amt, r)
  | _ => .error .wrongTxnType

/-- Box.create with a declared size: allocates a zero filled box, is a
no-op when the box already exists with the same size, and aborts when it
exists with a different size. -/
def boxCreate (b : Option (List Nat)) (size : Nat) : Except Err (Option (List Nat)) :=
  match b with
  | none => .ok (some (List.replicate size 0))
  | some bs => if bs.length = size then .ok (some bs) else .error .boxSizeMismatch

/-- Box.replace offset data: overwrites data.length bytes starting at
offset; the AVM rejects a write whose range falls outside the box. -/
def boxReplace (b : Option (List Nat)) (offset : Nat) (data : List Nat) :
    Except Err (Option (List Nat)) :=
  match b with
  | none => .error .boxMissing
  | some bs =>
    if offset + data.length ≤ bs.length then
      .ok (some (bs.take offset ++ data ++ bs.drop (offset + data.length)))
    else .error .boxOutOfBounds

/-- State of a freshly deployed application before any method ran. -/
def emptyState : ContractState :=
  { startRound := none, endRound := none, finalized := false, asaId := none
    initialized := false, gFlags := none, gBalMin := none, gBalMax := none
    gMinAge := none, opinionText := none, gateHold := none, gateDeny := none
    gateNfd := none }

/-- createApplication: sets the two lifecycle booleans to false. -/
def createApplication (st : ContractState) : ContractState :=
  { st with initialized := false, finalized := false }

/-- Call context shared by the author gated methods (writeChunk,
setGates, extend): only Txn.sender is inspected. -/
structure CallCtx where
  sender : Nat
deriving DecidableEq, Repr

/-- Context of an initialize call: Txn.sender, Global.round, the atomic
group, Global.currentApplicationAddress, and the asset id the ledger
assigns to the created asset. -/
structure InitCtx where
  sender : Nat
  round : Nat
  group : List GTxn
  appAddress : Nat
  newAsaId : Nat
deriving DecidableEq, Repr

/-- Arguments of initialize; title, opinionType and url are byte lists. -/
structure InitArgs where
  title : List Nat
  textSize : Nat
  duration : Nat
  opinionType : List Nat
  url : List Nat
deriving DecidableEq, Repr

/-- Context of a sign call: Txn.sender, Global.round and the group. -/
structure SignCtx where
  sender : Nat
  round : Nat
  group : List GTxn
deriving DecidableEq, Repr

/-- Context of a finalize call: Txn.sender, Global.round, and the app
account balance and minimum balance read by the reward computation. -/
structure FinCtx where
  sender : Nat
  round : Nat
  balance : Nat
  minBalance : Nat
deriving DecidableEq, Repr

/-- Arguments of setGates. -/
structure GateArgs where
  flags : Nat
  balMin : Nat
  balMax : Nat
  minAge : Nat
  asaHold : List Nat
  asaDeny : List Nat
  nfdRoot : List Nat
deriving DecidableEq, Repr

/-- The initialize method (named initializeOpinion here because
initialize is a reserved word in Lean).  Checks funding, duration and
field bounds, stamps the timing globals, allocates the content box,
mints the Signature Asset and records its id.  Overflow of the uint64
addition startRound + duration aborts, as on the AVM. -/
def initializeOpinion (c : Config) (ctx : InitCtx) (args : InitArgs) :
    Except Err (Config × List Itxn × Nat) := do
  sassert (!c.st.initialized) .alreadyInitialized
  sassert (decide (2 ≤ ctx.group.length)) .expectedPaymentAndAppCall
  let payment ← getPaymentTxn ctx.group 0
  sassert (payment.2.1 == ctx.appAddress) .paymentMustGoToApp
  sassert (decide (MIN_FUNDING ≤ payment.2.2)) .minimumFunding
  sassert (decide (MIN_DURATION ≤ args.duration)) .minimumDuration
  sassert (!(args.title == [])) .titleEmpty
  sassert (decide (args.title.length ≤ 32)) .titleTooLong
  sassert (decide (0 < args.textSize)) .textSizeZero
  sassert (decide (args.textSize ≤ 32768)) .textTooLarge
  sassert (args.opinionType.length == 32) .opinionTypeNot32Bytes
  sassert (!(args.opinionType == List.replicate 32 0)) .opinionTypeEmpty
  sassert (decide (args.url.length ≤ 96)) .urlTooLong
  let startRound := ctx.round
  sassert (decide (startRound + args.duration < UINT64_LIMIT)) .uint64Overflow
  let endRound := startRound + args.duration
  let text ← boxCreate c.st.opinionText args.textSize
  let params : AssetParams :=
    { total := 0, decimals := 0, assetName := args.title
      unitName := zeroUnitName, metadataHash := args.opinionType
      url := args.url, manager := ctx.appAddress, reserve := ctx.sender
      freeze := 0, clawback := 0 }
  let asaId := ctx.newAsaId
  .ok
    ({ st :=
        { c.st with
          startRound := some startRound, endRound := some endRound
          opinionText := text, asaId := some asaId, initialized := true }
       assets := assetSet c.assets asaId params },
     [Itxn.assetCreate params], asaId)

/-- writeChunk: author only; writes data into the content box at the
given offset. -/
def writeChunk (c : Config) (ctx : CallCtx) (offset : Nat) (data : List Nat) :
    Except Err Config := do
  sassert c.st.initialized .notInitialized
  sassert (!c.st.finalized) .alreadyFinalized
  let a ← gval c.st.asaId
  let p ← getAsset c.assets a
  sassert (ctx.sender == p.reserve) .onlyAuthorCanWrite
  let text ← boxReplace c.st.opinionText offset data
  .ok { c with st := { c.st with opinionText := text } }

/-- The three scalar gate writes of setGates, one per flag bit (bit2
balMin, bit3 balMax, bit5 minAge). -/
def applyScalarGates (st : ContractState) (g : GateArgs) : ContractState :=
  let st1 := if (g.flags &&& 4) != 0 then { st with gBalMin := some g.balMin } else st
  let st2 := if (g.flags &&& 8) != 0 then { st1 with gBalMax := some g.balMax } else st1
  if (g.flags &&& 32) != 0 then { st2 with gMinAge := some g.minAge } else st2

/-- The bit0 block of setGates: validate and copy the asaHold blob. -/
def applyHoldGate (st : ContractState) (g : GateArgs) : Except Err ContractState :=
  if (g.flags &&& 1) != 0 then do
    sassert (decide (0 < g.asaHold.length)) .asaHoldEmpty
    sassert (g.asaHold.length % 8 == 0) .asaHoldMisaligned
    let b ← boxCreate st.gateHold g.asaHold.length
    let b ← boxReplace b 0 g.asaHold
    pure { st with gateHold := b }
  else pure st

/-- The bit1 block of setGates: validate and copy the asaDeny blob. -/
def applyDenyGate (st : ContractState) (g : GateArgs) : Except Err ContractState :=
  if (g.flags &&& 2) != 0 then do
    sassert (decide (0 < g.asaDeny.length)) .asaDenyEmpty
    sassert (g.asaDeny.length % 8 == 0) .asaDenyMisaligned
    let b ← boxCreate st.gateDeny g.asaDeny.length
    let b ← boxReplace b 0 g.asaDeny
    pure { st with gateDeny := b }
  else pure st

/-- The bit6 block of setGates: validate and copy the nfd root. -/
def applyNfdGate (st : ContractState) (g : GateArgs) : Except Err ContractState :=
  if (g.flags &&& 64) != 0 then do
    sassert (!(g.nfdRoot == [])) .nfdRootEmpty
    let b ← boxCreate st.gateNfd g.nfdRoot.length
    let b ← boxReplace b 0 g.nfdRoot
    pure { st with gateNfd := b }
  else pure st

/-- setGates: author only, guarded by the stored flag word being unset
or zero; stores the flag word, the scalar gates whose bits are set, and
copies the packed asset lists into their boxes when their bits are set
(each helper above embeds one if block of the source body, in source
order).  Note that setGates does not consult the finalized flag. -/
def setGates (c : Config) (ctx : CallCtx) (g : GateArgs) : Except Err Config := do
  sassert c.st.initialized .notInitialized
  let a ← gval c.st.asaId
  let p ← getAsset c.assets a
  sassert (ctx.sender == p.reserve) .onlyAuthorCanSetGates
  sassert (c.st.gFlags == none || c.st.gFlags == some 0) .gatesAlreadySet
  sassert (decide (0 < g.flags)) .mustEnableOneGate
  let st := applyScalarGates { c.st with gFlags := some g.flags } g
  let st ← applyHoldGate st g
  let st ← applyDenyGate st g
  let st ← applyNfdGate st g
  .ok { c with st := st }

/-- sign: validates the two transaction atomic group (app call plus zero
amount self transfer of the Signature Asset) and writes nothing. -/
def sign (c : Config) (ctx : SignCtx) : Except Err Config := do
  sassert c.st.initialized .notInitialized
  let er ← gval c.st.endRound
  sassert (decide (ctx.round ≤ er)) .opinionEnded
  sassert (!c.st.finalized) .alreadyFinalized
  sassert (ctx.group.length == 2) .expectedAppCallAndOptIn
  let optIn ← getAssetTransferTxn ctx.group 1
  let a ← gval c.st.asaId
  sassert (optIn.2.1 == a) .wrongAsset
  sassert (optIn.2.2.1 == 0) .amountNotZero
  sassert (optIn.1 == ctx.sender) .optInSenderMismatch
  sassert (optIn.2.2.2 == ctx.sender) .optInReceiverMismatch
  .ok c

/-- extend: author only; strictly raises endRound. -/
def extend (c : Config) (ctx : CallCtx) (newEndRound : Nat) : Except Err Config := do
  sassert c.st.initialized .notInitialized
  let a ← gval c.st.asaId
  let p ← getAsset c.assets a
  sassert (ctx.sender == p.reserve) .onlyAuthorCanExtend
  sassert (!c.st.finalized) .alreadyFinalized
  let er ← gval c.st.endRound
  sassert (decide (er < newEndRound)) .newEndNotGreater
  .ok { c with st := { c.st with endRound := some newEndRound } }

/-- finalize: anyone, once the opinion has expired; removes the asset
manager (keeping the reserve), marks the opinion finalized, and pays the
residual balance to the caller when it is positive.  The uint64
subtraction balance - minBalance aborts on underflow, as on the AVM. -/
def finalize (c : Config) (ctx : FinCtx) : Except Err (Config × List Itxn) := do
  sassert c.st.initialized .notInitialized
  let er ← gval c.st.endRound
  sassert (decide (er < ctx.round)) .stillActive
  sassert (!c.st.finalized) .alreadyFinalized
  let a ← gval c.st.asaId
  let p ← getAsset c.assets a
  let newParams : AssetParams :=
    { p with manager := 0, reserve := p.reserve, freeze := 0, clawback := 0 }
  sassert (decide (ctx.minBalance ≤ ctx.balance)) .uint64Underflow
  let reward := ctx.balance - ctx.minBalance
  let effs :=
    Itxn.assetConfig a 0 p.reserve 0 0 ::
      (if 0 < reward then [Itxn.payment ctx.sender reward] else [])
  .ok
    ({ st := { c.st with finalized := true }
       assets := assetSet c.assets a newParams }, effs)

/-- getInfo: the read only query. -/
def getInfo (c : Config) : Except Err (Nat × Nat × Nat × Bool × Bool) := do
  let sr ← gval c.st.startRound
  let er ← gval c.st.endRound
  let a ← gval c.st.asaId
  .ok (sr, er, a, c.st.finalized, c.st.initialized)

/-- One successful contract call, with arbitrary call context and
arguments.  Aborting calls produce no step: the ledger discards all
their effects, so the configuration is unchanged. -/
inductive Step : Config → Config → Prop
  | initStep (c : Config) (ctx : InitCtx) (args : InitArgs) (c' : Config)
      (effs : List Itxn) (r : Nat) :
      initializeOpinion c ctx args = .ok (c', effs, r) → Step c c'
  | writeStep (c : Config) (ctx : CallCtx) (offset : Nat) (data : List Nat)
      (c' : Config) : writeChunk c ctx offset data = .ok c' → Step c c'
  | gatesStep (c : Config) (ctx : CallCtx) (g : GateArgs) (c' : Config) :
      setGates c ctx g = .ok c' → Step c c'
  | signStep (c : Config) (ctx : SignCtx) (c' : Config) :
      sign c ctx = .ok c' → Step c c'
  | extendStep (c : Config) (ctx : CallCtx) (newEndRound : Nat) (c' : Config) :
      extend c ctx newEndRound = .ok c' → Step c c'
  | finalizeStep (c : Config) (ctx : FinCtx) (c' : Config) (effs : List Itxn) :
      finalize c ctx = .ok (c', effs) → Step c c'

/-- Zero or more successful calls. -/
inductive Steps : Config → Config → Prop
  | refl (c : Config) : Steps c c
  | tail {a b c : Config} : Steps a b → Step b c → Steps a c

/-- Reachable configurations of one instance: the deployment state
(running createApplication on a fresh application, over an arbitrary
ambient asset table) followed by any number of successful calls. -/
inductive Reachable : Config → Prop
  | base (assets : List (Nat × AssetParams)) :
      Reachable { st := createApplication emptyState, assets := assets }
  | step {c c' : Config} : Reachable c → Step c c' → Reachable c'

/-- Decode a packed uint64 array (big endian, 8 bytes per entry); a
trailing fragment shorter than 8 bytes is ignored, exactly as the
source loop condition i + 8 <= data.length does. -/
def unpackUint64Array : List Nat → List Nat
  | b0 :: b1 :: b2 :: b3 :: b4 :: b5 :: b6 :: b7 :: rest =>
      List.foldl (fun v b => (v <<< 8) ||| b) 0 [b0, b1, b2, b3, b4, b5, b6, b7] ::
        unpackUint64Array rest
  | _ => []

/-- The eight big endian bytes of one uint64 entry, least significant
byte written last, exactly as the inner loop of packUint64Array. -/
def beBytes8 (v : Nat) : List Nat :=
  [v >>> 56 &&& 255, v >>> 48 &&& 255, v >>> 40 &&& 255, v >>> 32 &&& 255,
   v >>> 24 &&& 255, v >>> 16 &&& 255, v >>> 8 &&& 255, v &&& 255]

/-- Pack an id list into consecutive 8 byte big endian groups. -/
def packUint64Array : List Nat → List Nat
  | [] => []
  | v :: rest => beBytes8 v ++ packUint64Array rest

/-! Concrete run of one instance, used by witnesses and counterexamples:
author is account 1, the application account is 2, the funder is 3, the
finalizer is 4, the Signature Asset gets id 7. -/

/-- The Signature Asset as minted by the example initialize call. -/
def asaParamsEx : AssetParams :=
  { total := 0, decimals := 0, assetName := [84], unitName := zeroUnitName
    metadataHash := 1 :: List.replicate 31 0, url := []
    manager := 2, reserve := 1, freeze := 0, clawback := 0 }

/-- The Signature Asset after finalization removed its manager. -/
def asaParamsFinEx : AssetParams := { asaParamsEx with manager := 0 }

/-- The deployment configuration of the example instance. -/
def c0ex : Config := { st := createApplication emptyState, assets := [] }

def initCtxEx : InitCtx :=
  { sender := 1, round := 10, group := [GTxn.pay 3 2 20000000, GTxn.appl 1]
    appAddress := 2, newAsaId := 7 }

def initArgsEx : InitArgs :=
  { title := [84], textSize := 1, duration := 25000
    opinionType := 1 :: List.replicate 31 0, url := [] }

/-- The example instance right after initialize. -/
def c1ex : Config :=
  { st :=
      { startRound := some 10, endRound := some 25010, finalized := false
        asaId := some 7, initialized := true, gFlags := none, gBalMin := none
        gBalMax := none, gMinAge := none, opinionText := some [0]
        gateHold := none, gateDeny := none, gateNfd := none }
    assets := [(7, asaParamsEx)] }

def finCtxEx : FinCtx := { sender := 4, round := 25011, balance := 100, minBalance := 100 }

/-- The example instance right after finalize. -/
def c2ex : Config :=
  { st := { c1ex.st with finalized := true }
    assets := [(7, asaParamsFinEx), (7, asaParamsEx)] }

/-- Gate arguments selecting only the minimum balance gate. -/
def gateArgsEx : GateArgs :=
  { flags := 4, balMin := 5, balMax := 0, minAge := 0, asaHold := []
    asaDeny := [], nfdRoot := [] }

/-- Gate arguments selecting only the minimum balance gate while also
passing a misaligned three byte asaHold blob. -/
def gateArgsMisEx : GateArgs :=
  { flags := 4, balMin := 5, balMax := 0, minAge := 0, asaHold := [1, 2, 3]
    asaDeny := [], nfdRoot := [] }

/-- The finalized example instance after a late setGates call. -/
def c3ex : Config :=
  { c2ex with st := { c2ex.st with gFlags := some 4, gBalMin := some 5 } }

/-- The active example instance after the misaligned setGates call. -/
def c1gatesEx : Config :=
  { c1ex with st := { c1ex.st with gFlags := some 4, gBalMin := some 5 } }

/-- A call aborts: it returns some error, and therefore (by the
transactional step semantics) changes nothing. -/
def aborts {α : Type} (e : Except Err α) : Prop := ∃ m, e = Except.error m

/-- Structural invariant of reachable configurations. -/
structure Inv (c : Config) : Prop where
  rounds : c.st.initialized = true →
    ∃ sr er, c.st.startRound = some sr ∧ c.st.endRound = some er ∧ sr < er
  asset : c.st.initialized = true →
    ∃ a p, c.st.asaId = some a ∧ assetLookup c.assets a = some p
  fin_init : c.st.finalized = true → c.st.initialized = true
  gflags : ∀ f, c.st.gFlags = some f → 0 < f

/-- The asset parameter record minted by initialize. -/
def mintedParams (ctx : InitCtx) (args : InitArgs) : AssetParams :=
  { total := 0, decimals := 0, assetName := args.title
    unitName := zeroUnitName, metadataHash := args.opinionType
    url := args.url, manager := ctx.appAddress, reserve := ctx.sender
    freeze := 0, clawback := 0 }

/-- The full result of a successful initialize call. -/
def initPost (c : Config) (ctx : InitCtx) (args : InitArgs)
    (text : Option (List Nat)) : Config × List Itxn × Nat :=
  ({ st :=
      { c.st with
        startRound := some ctx.round
        endRound := some (ctx.round + args.duration)
        opinionText := text, asaId := some ctx.newAsaId
        initialized := true }
     assets := assetSet c.assets ctx.newAsaId (mintedParams ctx args) },
   [Itxn.assetCreate (mintedParams ctx args)], ctx.newAsaId)

/-- The full result of a successful finalize call. -/
def finPost (c : Config) (ctx : FinCtx) (a : Nat) (p : AssetParams) :
    Config × List Itxn :=
  ({ st := { c.st with finalized := true }
     assets := assetSet c.assets a { p with manager := 0, freeze := 0, clawback := 0 } },
   Itxn.assetConfig a 0 p.reserve 0 0 ::
     (if 0 < ctx.balance - ctx.minBalance then
        [Itxn.payment ctx.sender (ctx.balance - ctx.minBalance)]
      else []))

/-- The example instance after the author extends to round 25011. -/
def c1extEx : Config :=
  { c1ex with st := { c1ex.st with endRound := some 25011 } }

/-- A sign context whose group is a well formed app call plus opt in. -/
def signCtxEx : SignCtx :=
  { sender := 9, round := 100, group := [GTxn.appl 9, GTxn.axfer 9 7 0 9] }

/-- Gate arguments selecting only the asaHold gate with one packed id. -/
def gateArgsHoldEx : GateArgs :=
  { flags := 1, balMin := 0, balMax := 0, minAge := 0
    asaHold := [0, 0, 0, 0, 0, 0, 0, 42], asaDeny := [], nfdRoot := [] }

/-- The example instance after the asaHold setGates call. -/
def cGEx : Config :=
  { c1ex with st :=
      { c1ex.st with gFlags := some 1, gateHold := some [0, 0, 0, 0, 0, 0, 0, 42] } }

/-- An initialize context whose group carries a third, riding operation. -/
def initCtx3Ex : InitCtx :=
  { initCtxEx with group := [GTxn.pay 3 2 20000000, GTxn.appl 1, GTxn.pay 3 3 1] }

/-- Scenario A context: the bundled payment is one unit short. -/
def initCtxLowPayEx : InitCtx :=
  { initCtxEx with group := [GTxn.pay 3 2 19999999, GTxn.appl 1] }

/-- Scenario B arguments: the duration is one round short. -/
def initArgsShortEx : InitArgs := { initArgsEx with duration := 24999 }

/-- Packed id lists of lengths one, two and one hundred. -/
def ids1Ex : List Nat := [18446744073709551615]

def ids2Ex : List Nat := [0, 9876543210]

def ids100Ex : List Nat := (List.range 100).map (fun i => i * 123456789 + 5)

theorem ok_bind {α β : Type} (a : α) (f : α → Except Err β) :
    (Except.ok a >>= f) = f a := rfl

theorem error_bind {α β : Type} (e : Err) (f : α → Except Err β) :
    ((Except.error e : Except Err α) >>= f) = Except.error e := rfl

theorem bind_eq_ok {α β : Type} {x : Except Err α} {f : α → Except Err β} {b : β} :
    x >>= f = .ok b ↔ ∃ a, x = .ok a ∧ f a = .ok b := by
  cases x <;> simp [ok_bind, error_bind]

theorem sassert_eq_ok {b : Bool} {e : Err} {u : Unit} :
    sassert b e = .ok u ↔ b = true := by
  cases b <;> simp [sassert]

theorem gval_eq_ok {o : Option Nat} {v : Nat} : gval o = .ok v ↔ o = some v := by
  cases o <;> simp [gval]

theorem getAsset_eq_ok {m : List (Nat × AssetParams)} {a : Nat} {p : AssetParams} :
    getAsset m a = .ok p ↔ assetLookup m a = some p := by
  cases h : assetLookup m a <;> simp [getAsset, h]

theorem getPaymentTxn_eq_ok {g : List GTxn} {i : Nat} {t : Nat × Nat × Nat} :
    getPaymentTxn g i = .ok t ↔ g[i]? = some (.pay t.1 t.2.1 t.2.2) := by
  obtain ⟨s, r, a⟩ := t
  cases h : g[i]? with
  | none => simp [getPaymentTxn, h]
  | some tx => cases tx <;> simp [getPaymentTxn, h]

theorem getAssetTransferTxn_eq_ok {g : List GTxn} {i : Nat} {t : Nat × Nat × Nat × Nat} :
    getAssetTransferTxn g i = .ok t ↔
      g[i]? = some (.axfer t.1 t.2.1 t.2.2.1 t.2.2.2) := by
  obtain ⟨s, x, amt, r⟩ := t
  cases h : g[i]? with
  | none => simp [getAssetTransferTxn, h]
  | some tx => cases tx <;> simp [getAssetTransferTxn, h]

theorem boxCreate_eq_ok {b : Option (List Nat)} {size : Nat} {t : Option (List Nat)} :
    boxCreate b size = .ok t ↔
      (b = none ∧ t = some (List.replicate size 0)) ∨
        (∃ bs, b = some bs ∧ bs.length = size ∧ t = some bs) := by
  cases b with
  | none => simp [boxCreate, eq_comm]
  | some bs =>
    by_cases h : bs.length = size <;> simp [boxCreate, h, eq_comm] <;> aesop

theorem boxReplace_eq_ok {b : Option (List Nat)} {offset : Nat} {data : List Nat}
    {t : Option (List Nat)} :
    boxReplace b offset data = .ok t ↔
      ∃ bs, b = some bs ∧ offset + data.length ≤ bs.length ∧
        t = some (bs.take offset ++ data ++ bs.drop (offset + data.length)) := by
  cases b with
  | none => simp [boxReplace]
  | some bs =>
    by_cases h : offset + data.length ≤ bs.length <;> simp [boxReplace, h, eq_comm] <;> aesop





theorem initializeOpinion_eq_ok {c : Config} {ctx : InitCtx} {args : InitArgs}
    {out : Config × List Itxn × Nat} :
    initializeOpinion c ctx args = .ok out ↔
      c.st.initialized = false ∧
      2 ≤ ctx.group.length ∧
      ∃ ps rcv amt,
        ctx.group[0]? = some (.pay ps rcv amt) ∧
        rcv = ctx.appAddress ∧
        MIN_FUNDING ≤ amt ∧
        MIN_DURATION ≤ args.duration ∧
        args.title ≠ [] ∧ args.title.length ≤ 32 ∧
        0 < args.textSize ∧ args.textSize ≤ 32768 ∧
        args.opinionType.length = 32 ∧ args.opinionType ≠ List.replicate 32 0 ∧
        args.url.length ≤ 96 ∧
        ctx.round + args.duration < UINT64_LIMIT ∧
        ∃ text, boxCreate c.st.opinionText args.textSize = .ok text ∧
          initPost c ctx args text = out := by
  simp only [initializeOpinion, initPost, mintedParams, bind_eq_ok, sassert_eq_ok,
    gval_eq_ok, getPaymentTxn_eq_ok, Prod.exists, exists_const,
    decide_eq_true_eq, beq_iff_eq, beq_eq_false_iff_ne, Bool.not_eq_true',
    Bool.not_eq_eq_eq_not, Bool.not_true, Except.ok.injEq]




theorem writeChunk_eq_ok {c : Config} {ctx : CallCtx} {offset : Nat}
    {data : List Nat} {c' : Config} :
    writeChunk c ctx offset data = .ok c' ↔
      c.st.initialized = true ∧ c.st.finalized = false ∧
      ∃ a, c.st.asaId = some a ∧
      ∃ p, assetLookup c.assets a = some p ∧ ctx.sender = p.reserve ∧
      ∃ text, boxReplace c.st.opinionText offset data = .ok text ∧
        { c with st := { c.st with opinionText := text } } = c' := by
  simp only [writeChunk, bind_eq_ok, sassert_eq_ok, gval_eq_ok, getAsset_eq_ok,
    exists_const, decide_eq_true_eq, beq_iff_eq, Bool.not_eq_true',
    Except.ok.injEq]

theorem sign_eq_ok {c : Config} {ctx : SignCtx} {c' : Config} :
    sign c ctx = .ok c' ↔
      c.st.initialized = true ∧
      ∃ er, c.st.endRound = some er ∧ ctx.round ≤ er ∧
      c.st.finalized = false ∧ ctx.group.length = 2 ∧
      ∃ s x amt r, ctx.group[1]? = some (.axfer s x amt r) ∧
      ∃ a, c.st.asaId = some a ∧ x = a ∧ amt = 0 ∧
        s = ctx.sender ∧ r = ctx.sender ∧ c = c' := by
  simp only [sign, bind_eq_ok, sassert_eq_ok, gval_eq_ok, getAssetTransferTxn_eq_ok,
    Prod.exists, exists_const, decide_eq_true_eq, beq_iff_eq, Bool.not_eq_true',
    Except.ok.injEq]

theorem extend_eq_ok {c : Config} {ctx : CallCtx} {n : Nat} {c' : Config} :
    extend c ctx n = .ok c' ↔
      c.st.initialized = true ∧
      ∃ a, c.st.asaId = some a ∧
      ∃ p, assetLookup c.assets a = some p ∧ ctx.sender = p.reserve ∧
      c.st.finalized = false ∧
      ∃ er, c.st.endRound = some er ∧ er < n ∧
        { c with st := { c.st with endRound := some n } } = c' := by
  simp only [extend, bind_eq_ok, sassert_eq_ok, gval_eq_ok, getAsset_eq_ok,
    exists_const, decide_eq_true_eq, beq_iff_eq, Bool.not_eq_true',
    Except.ok.injEq]

theorem finalize_eq_ok {c : Config} {ctx : FinCtx} {out : Config × List Itxn} :
    finalize c ctx = .ok out ↔
      c.st.initialized = true ∧
      ∃ er, c.st.endRound = some er ∧ er < ctx.round ∧
      c.st.finalized = false ∧
      ∃ a, c.st.asaId = some a ∧
      ∃ p, assetLookup c.assets a = some p ∧
      ctx.minBalance ≤ ctx.balance ∧
      finPost c ctx a p = out := by
  simp only [finalize, finPost, bind_eq_ok, sassert_eq_ok, gval_eq_ok,
    getAsset_eq_ok, exists_const, decide_eq_true_eq, beq_iff_eq,
    Bool.not_eq_true', Except.ok.injEq]

theorem getInfo_eq_ok {c : Config} {out : Nat × Nat × Nat × Bool × Bool} :
    getInfo c = .ok out ↔
      ∃ sr, c.st.startRound = some sr ∧
      ∃ er, c.st.endRound = some er ∧
      ∃ a, c.st.asaId = some a ∧
        (sr, er, a, c.st.finalized, c.st.initialized) = out := by
  simp only [getInfo, bind_eq_ok, gval_eq_ok, exists_const, Except.ok.injEq]



theorem applyHoldGate_eq_ok {st : ContractState} {g : GateArgs} {st' : ContractState} :
    applyHoldGate st g = .ok st' ↔
      (((g.flags &&& 1) != 0) = false ∧ st' = st) ∨
      (((g.flags &&& 1) != 0) = true ∧ 0 < g.asaHold.length ∧
        g.asaHold.length % 8 = 0 ∧
        (st.gateHold = none ∨ ∃ bs, st.gateHold = some bs ∧ bs.length = g.asaHold.length) ∧
        st' = { st with gateHold := some g.asaHold }) := by
  by_cases hbit : ((g.flags &&& 1) != 0) = true
  · simp only [applyHoldGate, hbit, if_true, bind_eq_ok, sassert_eq_ok,
      boxCreate_eq_ok, boxReplace_eq_ok, exists_const, decide_eq_true_eq,
      beq_iff_eq, pure, Except.pure, Except.ok.injEq, Bool.true_eq_false,
      false_and, false_or, true_and]
    constructor
    · rintro ⟨hlen, hmod, b, hb, b2, ⟨bs, hbs, hle, hb2⟩, hst⟩
      rcases hb with ⟨hnone, hrepl⟩ | ⟨bs0, hsome, hlen0, hrepl⟩
      · refine ⟨hlen, hmod, Or.inl hnone, ?_⟩
        subst hrepl
        obtain ⟨rfl⟩ : bs = List.replicate g.asaHold.length 0 := by
          simpa using hbs.symm
        subst hb2
        simp only [List.take_zero, List.nil_append, Nat.zero_add] at hst
        rw [← hst]
        congr 1
        rw [List.drop_eq_nil_of_le (by simp), List.append_nil]
      · refine ⟨hlen, hmod, Or.inr ⟨bs0, hsome, hlen0⟩, ?_⟩
        subst hrepl
        obtain ⟨rfl⟩ : bs = bs0 := by simpa using hbs.symm
        subst hb2
        simp only [List.take_zero, List.nil_append, Nat.zero_add] at hst
        rw [← hst]
        congr 1
        rw [List.drop_eq_nil_of_le (by omega), List.append_nil]
    · rintro ⟨hlen, hmod, hbox, hst⟩
      rcases hbox with hnone | ⟨bs, hsome, hbslen⟩
      · refine ⟨hlen, hmod, some (List.replicate g.asaHold.length 0), Or.inl ⟨hnone, rfl⟩,
          some g.asaHold, ⟨List.replicate g.asaHold.length 0, rfl, by simp, ?_⟩, ?_⟩
        · congr 1
          rw [List.take_zero, List.nil_append, Nat.zero_add,
            List.drop_eq_nil_of_le (by simp), List.append_nil]
        · exact hst.symm
      · refine ⟨hlen, hmod, some bs, Or.inr ⟨bs, hsome, hbslen, rfl⟩,
          some g.asaHold, ⟨bs, rfl, by omega, ?_⟩, ?_⟩
        · congr 1
          rw [List.take_zero, List.nil_append, Nat.zero_add,
            List.drop_eq_nil_of_le (by omega), List.append_nil]
        · exact hst.symm
  · simp only [Bool.not_eq_true] at hbit
    simp only [applyHoldGate, hbit, Bool.false_eq_true, if_false, pure,
      Except.pure, Except.ok.injEq, Bool.true_eq_false, false_and, or_false,
      true_and, and_false]
    exact eq_comm



theorem applyDenyGate_eq_ok {st : ContractState} {g : GateArgs} {st' : ContractState} :
    applyDenyGate st g = .ok st' ↔
      (((g.flags &&& 2) != 0) = false ∧ st' = st) ∨
      (((g.flags &&& 2) != 0) = true ∧ 0 < g.asaDeny.length ∧
        g.asaDeny.length % 8 = 0 ∧
        (st.gateDeny = none ∨ ∃ bs, st.gateDeny = some bs ∧ bs.length = g.asaDeny.length) ∧
        st' = { st with gateDeny := some g.asaDeny }) := by
  by_cases hbit : ((g.flags &&& 2) != 0) = true
  · simp only [applyDenyGate, hbit, if_true, bind_eq_ok, sassert_eq_ok,
      boxCreate_eq_ok, boxReplace_eq_ok, exists_const, decide_eq_true_eq,
      beq_iff_eq, pure, Except.pure, Except.ok.injEq, Bool.true_eq_false,
      false_and, false_or, true_and]
    constructor
    · rintro ⟨hlen, hmod, b, hb, b2, ⟨bs, hbs, hle, hb2⟩, hst⟩
      rcases hb with ⟨hnone, hrepl⟩ | ⟨bs0, hsome, hlen0, hrepl⟩
      · refine ⟨hlen, hmod, Or.inl hnone, ?_⟩
        subst hrepl
        obtain ⟨rfl⟩ : bs = List.replicate g.asaDeny.length 0 := by
          simpa using hbs.symm
        subst hb2
        simp only [List.take_zero, List.nil_append, Nat.zero_add] at hst
        rw [← hst]
        congr 1
        rw [List.drop_eq_nil_of_le (by simp), List.append_nil]
      · refine ⟨hlen, hmod, Or.inr ⟨bs0, hsome, hlen0⟩, ?_⟩
        subst hrepl
        obtain ⟨rfl⟩ : bs = bs0 := by simpa using hbs.symm
        subst hb2
        simp only [List.take_zero, List.nil_append, Nat.zero_add] at hst
        rw [← hst]
        congr 1
        rw [List.drop_eq_nil_of_le (by omega), List.append_nil]
    · rintro ⟨hlen, hmod, hbox, hst⟩
      rcases hbox with hnone | ⟨bs, hsome, hbslen⟩
      · refine ⟨hlen, hmod, some (List.replicate g.asaDeny.length 0), Or.inl ⟨hnone, rfl⟩,
          some g.asaDeny, ⟨List.replicate g.asaDeny.length 0, rfl, by simp, ?_⟩, ?_⟩
        · congr 1
          rw [List.take_zero, List.nil_append, Nat.zero_add,
            List.drop_eq_nil_of_le (by simp), List.append_nil]
        · exact hst.symm
      · refine ⟨hlen, hmod, some bs, Or.inr ⟨bs, hsome, hbslen, rfl⟩,
          some g.asaDeny, ⟨bs, rfl, by omega, ?_⟩, ?_⟩
        · congr 1
          rw [List.take_zero, List.nil_append, Nat.zero_add,
            List.drop_eq_nil_of_le (by omega), List.append_nil]
        · exact hst.symm
  · simp only [Bool.not_eq_true] at hbit
    simp only [applyDenyGate, hbit, Bool.false_eq_true, if_false, pure,
      Except.pure, Except.ok.injEq, Bool.true_eq_false, false_and, or_false,
      true_and, and_false]
    exact eq_comm

theorem applyNfdGate_eq_ok {st : ContractState} {g : GateArgs} {st' : ContractState} :
    applyNfdGate st g = .ok st' ↔
      (((g.flags &&& 64) != 0) = false ∧ st' = st) ∨
      (((g.flags &&& 64) != 0) = true ∧ g.nfdRoot ≠ [] ∧
        (st.gateNfd = none ∨ ∃ bs, st.gateNfd = some bs ∧ bs.length = g.nfdRoot.length) ∧
        st' = { st with gateNfd := some g.nfdRoot }) := by
  by_cases hbit : ((g.flags &&& 64) != 0) = true
  · simp only [applyNfdGate, hbit, if_true, bind_eq_ok, sassert_eq_ok,
      boxCreate_eq_ok, boxReplace_eq_ok, exists_const, Bool.not_eq_true',
      beq_eq_false_iff_ne, pure, Except.pure, Except.ok.injEq,
      Bool.true_eq_false, false_and, false_or, true_and]
    constructor
    · rintro ⟨hne, b, hb, b2, ⟨bs, hbs, hle, hb2⟩, hst⟩
      rcases hb with ⟨hnone, hrepl⟩ | ⟨bs0, hsome, hlen0, hrepl⟩
      · refine ⟨hne, Or.inl hnone, ?_⟩
        subst hrepl
        obtain ⟨rfl⟩ : bs = List.replicate g.nfdRoot.length 0 := by
          simpa using hbs.symm
        subst hb2
        simp only [List.take_zero, List.nil_append, Nat.zero_add] at hst
        rw [← hst]
        congr 1
        rw [List.drop_eq_nil_of_le (by simp), List.append_nil]
      · refine ⟨hne, Or.inr ⟨bs0, hsome, hlen0⟩, ?_⟩
        subst hrepl
        obtain ⟨rfl⟩ : bs = bs0 := by simpa using hbs.symm
        subst hb2
        simp only [List.take_zero, List.nil_append, Nat.zero_add] at hst
        rw [← hst]
        congr 1
        rw [List.drop_eq_nil_of_le (by omega), List.append_nil]
    · rintro ⟨hne, hbox, hst⟩
      rcases hbox with hnone | ⟨bs, hsome, hbslen⟩
      · refine ⟨hne, some (List.replicate g.nfdRoot.length 0), Or.inl ⟨hnone, rfl⟩,
          some g.nfdRoot, ⟨List.replicate g.nfdRoot.length 0, rfl, by simp, ?_⟩, ?_⟩
        · congr 1
          rw [List.take_zero, List.nil_append, Nat.zero_add,
            List.drop_eq_nil_of_le (by simp), List.append_nil]
        · exact hst.symm
      · refine ⟨hne, some bs, Or.inr ⟨bs, hsome, hbslen, rfl⟩,
          some g.nfdRoot, ⟨bs, rfl, by omega, ?_⟩, ?_⟩
        · congr 1
          rw [List.take_zero, List.nil_append, Nat.zero_add,
            List.drop_eq_nil_of_le (by omega), List.append_nil]
        · exact hst.symm
  · simp only [Bool.not_eq_true] at hbit
    simp only [applyNfdGate, hbit, Bool.false_eq_true, if_false, pure,
      Except.pure, Except.ok.injEq, Bool.true_eq_false, false_and, or_false,
      true_and, and_false]
    exact eq_comm

theorem setGates_eq_ok {c : Config} {ctx : CallCtx} {g : GateArgs} {c' : Config} :
    setGates c ctx g = .ok c' ↔
      c.st.initialized = true ∧
      ∃ a, c.st.asaId = some a ∧
      ∃ p, assetLookup c.assets a = some p ∧ ctx.sender = p.reserve ∧
      (c.st.gFlags = none ∨ c.st.gFlags = some 0) ∧
      0 < g.flags ∧
      ∃ st1, applyHoldGate (applyScalarGates { c.st with gFlags := some g.flags } g) g = .ok st1 ∧
      ∃ st2, applyDenyGate st1 g = .ok st2 ∧
      ∃ st3, applyNfdGate st2 g = .ok st3 ∧
        { c with st := st3 } = c' := by
  simp only [setGates, bind_eq_ok, sassert_eq_ok, gval_eq_ok, getAsset_eq_ok,
    exists_const, decide_eq_true_eq, beq_iff_eq, Bool.or_eq_true,
    Except.ok.injEq]



theorem setGates_ok_state {c : Config} {ctx : CallCtx} {g : GateArgs} {c' : Config}
    (h : setGates c ctx g = .ok c') :
    c'.assets = c.assets ∧
    c'.st.startRound = c.st.startRound ∧
    c'.st.endRound = c.st.endRound ∧
    c'.st.finalized = c.st.finalized ∧
    c'.st.asaId = c.st.asaId ∧
    c'.st.initialized = c.st.initialized ∧
    c'.st.opinionText = c.st.opinionText ∧
    c'.st.gFlags = some g.flags := by
  obtain ⟨hinit, a, ha, p, hp, hres, hflags0, hpos, st1, h1, st2, h2, st3, h3, hc⟩ :=
    setGates_eq_ok.mp h
  subst hc
  rcases applyHoldGate_eq_ok.mp h1 with ⟨h1b, rfl⟩ | ⟨h1b, h1l, h1m, h1x, rfl⟩ <;>
    rcases applyDenyGate_eq_ok.mp h2 with ⟨h2b, rfl⟩ | ⟨h2b, h2l, h2m, h2x, rfl⟩ <;>
      rcases applyNfdGate_eq_ok.mp h3 with ⟨h3b, rfl⟩ | ⟨h3b, h3l, h3x, rfl⟩ <;>
        (simp only [applyScalarGates]; split_ifs <;> simp)



theorem assetLookup_set (m : List (Nat × AssetParams)) (a : Nat) (p : AssetParams) :
    assetLookup (assetSet m a p) a = some p := by
  simp [assetSet, assetLookup]

theorem setGates_ok_boxes {c : Config} {ctx : CallCtx} {g : GateArgs} {c' : Config}
    (h : setGates c ctx g = .ok c') :
    (g.flags &&& 1 ≠ 0 → 0 < g.asaHold.length ∧ g.asaHold.length % 8 = 0 ∧
      c'.st.gateHold = some g.asaHold) ∧
    (g.flags &&& 2 ≠ 0 → 0 < g.asaDeny.length ∧ g.asaDeny.length % 8 = 0 ∧
      c'.st.gateDeny = some g.asaDeny) := by
  obtain ⟨hinit, a, ha, p, hp, hres, hflags0, hpos, st1, h1, st2, h2, st3, h3, hc⟩ :=
    setGates_eq_ok.mp h
  subst hc
  rcases applyHoldGate_eq_ok.mp h1 with ⟨h1b, rfl⟩ | ⟨h1b, h1l, h1m, h1x, rfl⟩ <;>
    rcases applyDenyGate_eq_ok.mp h2 with ⟨h2b, rfl⟩ | ⟨h2b, h2l, h2m, h2x, rfl⟩ <;>
      rcases applyNfdGate_eq_ok.mp h3 with ⟨h3b, rfl⟩ | ⟨h3b, h3l, h3x, rfl⟩ <;>
        simp_all [bne_eq_false_iff_eq, bne_iff_ne]

theorem inv_base (assets : List (Nat × AssetParams)) :
    Inv { st := createApplication emptyState, assets := assets } := by
  refine ⟨?_, ?_, ?_, ?_⟩ <;> simp [createApplication, emptyState]

theorem inv_step {c c' : Config} (inv : Inv c) (h : Step c c') : Inv c' := by
  cases h with
  | initStep ctx args c' effs r h =>
    obtain ⟨hninit, hlen, ps, rcv, amt, hpay, hrcv, hfund, hdur, htne, htlen,
      hts0, htsM, hot32, hotne, hurl, hovf, text, hbox, hout⟩ :=
      initializeOpinion_eq_ok.mp h
    obtain rfl : c' = (initPost c ctx args text).1 := (congrArg Prod.fst hout).symm
    have hdur25 : 25000 ≤ args.duration := hdur
    refine ⟨?_, ?_, ?_, ?_⟩
    · intro _
      exact ⟨ctx.round, ctx.round + args.duration, rfl, rfl, by omega⟩
    · intro _
      exact ⟨ctx.newAsaId, mintedParams ctx args, rfl, assetLookup_set _ _ _⟩
    · intro _
      rfl
    · intro f hf
      exact inv.gflags f hf
  | writeStep ctx offset data c' h =>
    obtain ⟨hinit, hfin, a, ha, p, hp, hres, text, hbox, hc⟩ :=
      writeChunk_eq_ok.mp h
    subst hc
    exact ⟨fun _ => inv.rounds hinit, fun _ => inv.asset hinit,
      fun _ => hinit, fun f hf => inv.gflags f hf⟩
  | gatesStep ctx g c' h =>
    obtain ⟨hassets, hsr, her, hfin, haid, hinit, htext, hflags⟩ := setGates_ok_state h
    obtain ⟨hinit0, a, ha, p, hp, hres, hflags0, hpos, _⟩ := setGates_eq_ok.mp h
    refine ⟨?_, ?_, ?_, ?_⟩
    · intro h1
      rw [hsr, her]
      exact inv.rounds (by rw [← hinit]; exact h1)
    · intro h1
      rw [haid, hassets]
      exact inv.asset (by rw [← hinit]; exact h1)
    · intro h1
      rw [hinit]
      exact inv.fin_init (by rw [← hfin]; exact h1)
    · intro f hf
      rw [hflags] at hf
      obtain rfl : g.flags = f := by simpa using hf
      exact hpos
  | signStep ctx c' h =>
    obtain ⟨hinit, er, her, hround, hfin, hlen, s, x, amt, rr, hx, a, ha,
      hxa, hamt, hs, hr, hc⟩ := sign_eq_ok.mp h
    subst hc
    exact inv
  | extendStep ctx n c' h =>
    obtain ⟨hinit, a, ha, p, hp, hres, hfin, er, her, hlt, hc⟩ := extend_eq_ok.mp h
    subst hc
    refine ⟨?_, ?_, ?_, ?_⟩
    · intro _
      obtain ⟨sr, er0, hsr, her0, hlt0⟩ := inv.rounds hinit
      refine ⟨sr, n, hsr, rfl, ?_⟩
      have he : er0 = er := by
        have := her0.symm.trans her
        simpa using this
      omega
    · exact fun _ => inv.asset hinit
    · exact fun _ => hinit
    · exact fun f hf => inv.gflags f hf
  | finalizeStep ctx c' effs h =>
    obtain ⟨hinit, er, her, hround, hfin, a, ha, p, hp, hbal, hout⟩ :=
      finalize_eq_ok.mp h
    obtain rfl : c' = (finPost c ctx a p).1 := (congrArg Prod.fst hout).symm
    refine ⟨?_, ?_, ?_, ?_⟩
    · intro _
      exact inv.rounds hinit
    · intro _
      exact ⟨a, { p with manager := 0, freeze := 0, clawback := 0 }, ha,
        assetLookup_set _ _ _⟩
    · intro _
      exact hinit
    · exact fun f hf => inv.gflags f hf

theorem reachable_inv {c : Config} (h : Reachable c) : Inv c := by
  induction h with
  | base assets => exact inv_base assets
  | step _ hstep ih => exact inv_step ih hstep



theorem aborts_of_not_ok {α : Type} {e : Except Err α} (h : ∀ x, e ≠ .ok x) :
    aborts e := by
  cases e with
  | ok v => exact absurd rfl (h v)
  | error m => exact ⟨m, rfl⟩

theorem setGates_aborts_of_gflags {c : Config} {ctx : CallCtx} {g : GateArgs}
    (hf : ∃ f, c.st.gFlags = some f ∧ f ≠ 0) : aborts (setGates c ctx g) := by
  obtain ⟨f, hf, hf0⟩ := hf
  apply aborts_of_not_ok
  intro c' h
  obtain ⟨_, a, ha, p, hp, hres, hflags0, _⟩ := setGates_eq_ok.mp h
  rcases hflags0 with h0 | h0 <;> rw [hf] at h0 <;> simp_all

theorem step_gflags {c c' : Config} (h : Step c c')
    (hf : ∃ f, c.st.gFlags = some f ∧ f ≠ 0) :
    ∃ f, c'.st.gFlags = some f ∧ f ≠ 0 := by
  cases h with
  | initStep ctx args c' effs r h =>
    obtain ⟨hninit, hlen, ps, rcv, amt, hpay, hrcv, hfund, hdur, htne, htlen,
      hts0, htsM, hot32, hotne, hurl, hovf, text, hbox, hout⟩ :=
      initializeOpinion_eq_ok.mp h
    obtain rfl : c' = (initPost c ctx args text).1 := (congrArg Prod.fst hout).symm
    exact hf
  | writeStep ctx offset data c' h =>
    obtain ⟨hinit, hfin, a, ha, p, hp, hres, text, hbox, hc⟩ :=
      writeChunk_eq_ok.mp h
    subst hc
    exact hf
  | gatesStep ctx g c' h =>
    obtain ⟨f, hfe, hf0⟩ := hf
    obtain ⟨_, a, ha, p, hp, hres, hflags0, _⟩ := setGates_eq_ok.mp h
    rcases hflags0 with h0 | h0 <;> rw [hfe] at h0 <;> simp_all
  | signStep ctx c' h =>
    obtain ⟨hinit, er, her, hround, hfin, hlen, s, x, amt, rr, hx, a, ha,
      hxa, hamt, hs, hr, hc⟩ := sign_eq_ok.mp h
    subst hc
    exact hf
  | extendStep ctx n c' h =>
    obtain ⟨hinit, a, ha, p, hp, hres, hfin, er, her, hlt, hc⟩ := extend_eq_ok.mp h
    subst hc
    exact hf
  | finalizeStep ctx c' effs h =>
    obtain ⟨hinit, er, her, hround, hfin, a, ha, p, hp, hbal, hout⟩ :=
      finalize_eq_ok.mp h
    obtain rfl : c' = (finPost c ctx a p).1 := (congrArg Prod.fst hout).symm
    exact hf

theorem steps_gflags {c c' : Config} (h : Steps c c')
    (hf : ∃ f, c.st.gFlags = some f ∧ f ≠ 0) :
    ∃ f, c'.st.gFlags = some f ∧ f ≠ 0 := by
  induction h with
  | refl => exact hf
  | tail _ hstep ih => exact step_gflags hstep ih



theorem and_255_lt (x : Nat) : x &&& 255 < 256 :=
  Nat.lt_succ_of_le Nat.and_le_right

theorem lor_small {a b : Nat} (hb : b < 256) : (a <<< 8) ||| b = a * 256 + b := by
  calc (a <<< 8) ||| b = 2 ^ 8 * a ||| b := by rw [Nat.shiftLeft_eq, mul_comm]
    _ = 2 ^ 8 * a + b := (Nat.mul_add_lt_is_or hb a).symm
    _ = a * 256 + b := by ring

theorem beWord_beBytes8 {v : Nat} (hv : v < UINT64_LIMIT) :
    List.foldl (fun acc b => (acc <<< 8) ||| b) 0
      [v >>> 56 &&& 255, v >>> 48 &&& 255, v >>> 40 &&& 255, v >>> 32 &&& 255,
       v >>> 24 &&& 255, v >>> 16 &&& 255, v >>> 8 &&& 255, v &&& 255] = v := by
  have hv64 : v < 18446744073709551616 := hv
  have h255 : (255 : Nat) = 2 ^ 8 - 1 := rfl
  simp only [List.foldl, Nat.zero_shiftLeft, Nat.zero_or]
  rw [lor_small (and_255_lt _), lor_small (and_255_lt _), lor_small (and_255_lt _),
    lor_small (and_255_lt _), lor_small (and_255_lt _), lor_small (and_255_lt _),
    lor_small (and_255_lt _)]
  simp only [h255, Nat.and_pow_two_sub_one_eq_mod, Nat.shiftRight_eq_div_pow]
  norm_num
  omega

theorem unpack_pack {ids : List Nat} (h : ∀ x ∈ ids, x < UINT64_LIMIT) :
    unpackUint64Array (packUint64Array ids) = ids := by
  induction ids with
  | nil => rfl
  | cons v rest ih =>
    have hv : v < UINT64_LIMIT := h v (List.mem_cons_self _ _)
    have hrest : ∀ x ∈ rest, x < UINT64_LIMIT := fun x hx => h x (List.mem_cons_of_mem _ hx)
    simp only [packUint64Array, beBytes8, List.cons_append, List.nil_append,
      unpackUint64Array, List.append_eq, List.nil_append]
    rw [ih hrest, beWord_beBytes8 hv]


/-- The example chain is reachable: deployment, initialize. -/
theorem reach_c1ex : Reachable c1ex :=
  Reachable.step (Reachable.base [])
    (Step.initStep c0ex initCtxEx initArgsEx c1ex [Itxn.assetCreate asaParamsEx] 7 (by rfl))

/-- The example chain is reachable: deployment, initialize, finalize. -/
theorem reach_c2ex : Reachable c2ex :=
  Reachable.step reach_c1ex
    (Step.finalizeStep c1ex finCtxEx c2ex [Itxn.assetConfig 7 0 1 0 0] (by rfl))

/-- Claim C1, counterexample: the configuration c2ex is reachable (create,
initialize, finalize) and finalized, yet the mutating operation setGates,
which never consults the finalized flag, still succeeds on it when the
author sets a fresh gate configuration. -/
theorem c1_counterexample :
    Reachable c2ex ∧ c2ex.st.finalized = true ∧
      setGates c2ex { sender := 1 } gateArgsEx = .ok c3ex ∧
      c3ex.st ≠ c2ex.st :=
  ⟨reach_c2ex, by rfl, by rfl, by decide⟩

/-- Claim C1 (amended): in every reachable finalized configuration the
operations initialize, writeChunk, sign, extend and finalize all abort,
and the read operation getInfo succeeds; setGates is the one mutating
operation not guarded by the finalized flag. -/
theorem c1_finalized_blocks_mutations :
    ∀ c, Reachable c → c.st.finalized = true →
      (∀ ctx args, aborts (initializeOpinion c ctx args)) ∧
      (∀ ctx offset data, aborts (writeChunk c ctx offset data)) ∧
      (∀ ctx, aborts (sign c ctx)) ∧
      (∀ ctx n, aborts (extend c ctx n)) ∧
      (∀ ctx, aborts (finalize c ctx)) ∧
      (∃ out, getInfo c = .ok out) := by
  intro c hR hfin
  have inv := reachable_inv hR
  have hinit : c.st.initialized = true := inv.fin_init hfin
  refine ⟨?_, ?_, ?_, ?_, ?_, ?_⟩
  · intro ctx args
    apply aborts_of_not_ok
    intro out hok
    obtain ⟨hninit, _⟩ := initializeOpinion_eq_ok.mp hok
    rw [hinit] at hninit
    exact absurd hninit (by decide)
  · intro ctx offset data
    apply aborts_of_not_ok
    intro out hok
    obtain ⟨_, hfin0, _⟩ := writeChunk_eq_ok.mp hok
    rw [hfin] at hfin0
    cases hfin0
  · intro ctx
    apply aborts_of_not_ok
    intro out hok
    obtain ⟨_, er, her, hround, hfin0, _⟩ := sign_eq_ok.mp hok
    rw [hfin] at hfin0
    cases hfin0
  · intro ctx n
    apply aborts_of_not_ok
    intro out hok
    obtain ⟨_, a, ha, p, hp, hres, hfin0, _⟩ := extend_eq_ok.mp hok
    rw [hfin] at hfin0
    cases hfin0
  · intro ctx
    apply aborts_of_not_ok
    intro out hok
    obtain ⟨_, er, her, hround, hfin0, _⟩ := finalize_eq_ok.mp hok
    rw [hfin] at hfin0
    cases hfin0
  · obtain ⟨sr, er, hsr, her, _⟩ := inv.rounds hinit
    obtain ⟨a, p, ha, hp⟩ := inv.asset hinit
    exact ⟨(sr, er, a, c.st.finalized, c.st.initialized),
      getInfo_eq_ok.mpr ⟨sr, hsr, er, her, a, ha, rfl⟩⟩

/-- Witness for the amended C1 theorem at the concrete finalized
configuration c2ex. -/
theorem c1_witness :
    aborts (extend c2ex { sender := 1 } 30000) ∧
      aborts (writeChunk c2ex { sender := 1 } 0 [1]) :=
  ⟨((c1_finalized_blocks_mutations c2ex reach_c2ex (by rfl)).2.2.2.1) { sender := 1 } 30000,
   ((c1_finalized_blocks_mutations c2ex reach_c2ex (by rfl)).2.1) { sender := 1 } 0 [1]⟩


/-- Claim C4: across any single successful operation on an initialized
instance the endRound slot stays set and never decreases, and in every
reachable initialized configuration endRound is strictly greater than
startRound. -/
theorem c4_endRound_monotone :
    (∀ c c', Step c c' → c.st.initialized = true →
      ∀ er, c.st.endRound = some er →
        ∃ er', c'.st.endRound = some er' ∧ er ≤ er') ∧
    (∀ c, Reachable c → c.st.initialized = true →
      ∃ sr er, c.st.startRound = some sr ∧ c.st.endRound = some er ∧ sr < er) := by
  constructor
  · intro c c' hstep hinit er her
    cases hstep with
    | initStep ctx args c' effs r h =>
      obtain ⟨hninit, _⟩ := initializeOpinion_eq_ok.mp h
      rw [hinit] at hninit
      exact absurd hninit (by decide)
    | writeStep ctx offset data c' h =>
      obtain ⟨_, _, a, ha, p, hp, hres, text, hbox, hc⟩ := writeChunk_eq_ok.mp h
      subst hc
      exact ⟨er, her, le_refl er⟩
    | gatesStep ctx g c' h =>
      obtain ⟨_, _, herq, _⟩ := setGates_ok_state h
      exact ⟨er, by rw [herq]; exact her, le_refl er⟩
    | signStep ctx c' h =>
      obtain ⟨_, er0, her0, _, _, _, s, x, amt, rr, hx, a, ha, hxa, hamt, hs, hr, hc⟩ :=
        sign_eq_ok.mp h
      subst hc
      exact ⟨er, her, le_refl er⟩
    | extendStep ctx n c' h =>
      obtain ⟨_, a, ha, p, hp, hres, _, er0, her0, hlt, hc⟩ := extend_eq_ok.mp h
      subst hc
      refine ⟨n, rfl, ?_⟩
      have : er = er0 := by
        have := her.symm.trans her0
        simpa using this
      omega
    | finalizeStep ctx c' effs h =>
      obtain ⟨_, er0, her0, _, _, a, ha, p, hp, hbal, hout⟩ := finalize_eq_ok.mp h
      obtain rfl : c' = (finPost c ctx a p).1 := (congrArg Prod.fst hout).symm
      exact ⟨er, her, le_refl er⟩
  · intro c hR hinit
    exact (reachable_inv hR).rounds hinit

/-- Witness for C4 at a concrete extend step and at the concrete
reachable configuration c1ex. -/
theorem c4_witness :
    (∃ er', c1extEx.st.endRound = some er' ∧ 25010 ≤ er') ∧
    (∃ sr er, c1ex.st.startRound = some sr ∧ c1ex.st.endRound = some er ∧ sr < er) :=
  ⟨c4_endRound_monotone.1 c1ex c1extEx
      (Step.extendStep c1ex { sender := 1 } 25011 c1extEx (by rfl)) (by rfl) 25010 (by rfl),
   c4_endRound_monotone.2 c1ex reach_c1ex (by rfl)⟩

/-- Claim C7: a successful setGates call requires the stored flag word
to be unset or zero, the caller to be the reserve of the Signature
Asset, and a nonzero flags argument; each selected packed asset list
must be a nonempty multiple of eight bytes and lands verbatim in its
box; and after one success every later setGates call aborts forever. -/
theorem c7_setGates_once :
    ∀ c ctx g c', setGates c ctx g = .ok c' →
      ((c.st.gFlags = none ∨ c.st.gFlags = some 0) ∧
       (∃ a p, c.st.asaId = some a ∧ assetLookup c.assets a = some p ∧
         ctx.sender = p.reserve) ∧
       g.flags ≠ 0 ∧
       (g.flags &&& 1 ≠ 0 → 0 < g.asaHold.length ∧ g.asaHold.length % 8 = 0 ∧
         c'.st.gateHold = some g.asaHold) ∧
       (g.flags &&& 2 ≠ 0 → 0 < g.asaDeny.length ∧ g.asaDeny.length % 8 = 0 ∧
         c'.st.gateDeny = some g.asaDeny)) ∧
      (∀ d, Steps c' d → ∀ ctx2 g2, aborts (setGates d ctx2 g2)) := by
  intro c ctx g c' h
  obtain ⟨hb1, hb2⟩ := setGates_ok_boxes h
  obtain ⟨hinit, a, ha, p, hp, hres, hflags0, hpos, _⟩ := setGates_eq_ok.mp h
  refine ⟨⟨hflags0, ⟨a, p, ha, hp, hres⟩, by omega, hb1, hb2⟩, ?_⟩
  intro d hSteps ctx2 g2
  apply setGates_aborts_of_gflags
  apply steps_gflags hSteps
  exact ⟨g.flags, (setGates_ok_state h).2.2.2.2.2.2.2, by omega⟩

/-- Witness for C7 at the concrete asaHold setGates call on c1ex. -/
theorem c7_witness :
    ((c1ex.st.gFlags = none ∨ c1ex.st.gFlags = some 0) ∧
      cGEx.st.gateHold = some [0, 0, 0, 0, 0, 0, 0, 42]) ∧
    aborts (setGates cGEx { sender := 1 } gateArgsHoldEx) := by
  have h := c7_setGates_once c1ex { sender := 1 } gateArgsHoldEx cGEx (by rfl)
  exact ⟨⟨h.1.1, (h.1.2.2.2.1 (by decide)).2.2⟩,
    h.2 cGEx (Steps.refl cGEx) { sender := 1 } gateArgsHoldEx⟩

/-- Claim C9: sign never changes anything: a successful call returns the
configuration it was given, so every global slot, every box and the
asset table are untouched. -/
theorem c9_sign_pure :
    ∀ c ctx c', sign c ctx = .ok c' →
      c' = c ∧ c'.st = c.st ∧ c'.assets = c.assets := by
  intro c ctx c' h
  obtain ⟨_, er, her, hround, hfin, hlen, s, x, amt, rr, hx, a, ha,
    hxa, hamt, hs, hr, hc⟩ := sign_eq_ok.mp h
  subst hc
  exact ⟨rfl, rfl, rfl⟩

/-- Witness for C9 at a concrete successful sign call on c1ex. -/
theorem c9_witness :
    sign c1ex signCtxEx = .ok c1ex ∧ c1ex.st = c1ex.st :=
  ⟨by rfl, (c9_sign_pure c1ex signCtxEx c1ex (by rfl)).2.1⟩


/-- Claim C2: the sign guards are checked in source order, each failing
first when all earlier guards pass, and sign succeeds (returning the
unchanged configuration) when all guards hold. -/
theorem c2_sign_guard_order :
    (∀ c ctx, c.st.initialized = false →
      sign c ctx = .error Err.notInitialized) ∧
    (∀ c ctx er, c.st.initialized = true → c.st.endRound = some er →
      er < ctx.round → sign c ctx = .error Err.opinionEnded) ∧
    (∀ c ctx er, c.st.initialized = true → c.st.endRound = some er →
      ctx.round ≤ er → c.st.finalized = true →
      sign c ctx = .error Err.alreadyFinalized) ∧
    (∀ c ctx er, c.st.initialized = true → c.st.endRound = some er →
      ctx.round ≤ er → c.st.finalized = false → ctx.group.length ≠ 2 →
      sign c ctx = .error Err.expectedAppCallAndOptIn) ∧
    (∀ c ctx er a g0 s x amt rr, c.st.initialized = true →
      c.st.endRound = some er → ctx.round ≤ er → c.st.finalized = false →
      ctx.group = [g0, GTxn.axfer s x amt rr] → c.st.asaId = some a →
      x ≠ a → sign c ctx = .error Err.wrongAsset) ∧
    (∀ c ctx er a g0 s amt rr, c.st.initialized = true →
      c.st.endRound = some er → ctx.round ≤ er → c.st.finalized = false →
      ctx.group = [g0, GTxn.axfer s a amt rr] → c.st.asaId = some a →
      amt ≠ 0 → sign c ctx = .error Err.amountNotZero) ∧
    (∀ c ctx er a g0 s rr, c.st.initialized = true →
      c.st.endRound = some er → ctx.round ≤ er → c.st.finalized = false →
      ctx.group = [g0, GTxn.axfer s a 0 rr] → c.st.asaId = some a →
      s ≠ ctx.sender → sign c ctx = .error Err.optInSenderMismatch) ∧
    (∀ c ctx er a g0 rr, c.st.initialized = true →
      c.st.endRound = some er → ctx.round ≤ er → c.st.finalized = false →
      ctx.group = [g0, GTxn.axfer ctx.sender a 0 rr] → c.st.asaId = some a →
      rr ≠ ctx.sender → sign c ctx = .error Err.optInReceiverMismatch) ∧
    (∀ c ctx er a g0, c.st.initialized = true →
      c.st.endRound = some er → ctx.round ≤ er → c.st.finalized = false →
      ctx.group = [g0, GTxn.axfer ctx.sender a 0 ctx.sender] →
      c.st.asaId = some a → sign c ctx = .ok c) := by
  refine ⟨?_, ?_, ?_, ?_, ?_, ?_, ?_, ?_, ?_⟩
  · intro c ctx h
    simp [sign, sassert, h, ok_bind, error_bind]
  · intro c ctx er h1 h2 h3
    have hn : ¬ (ctx.round ≤ er) := by omega
    simp [sign, sassert, gval, h1, h2, hn, ok_bind, error_bind]
  · intro c ctx er h1 h2 h3 h4
    simp [sign, sassert, gval, h1, h2, h3, h4, ok_bind, error_bind]
  · intro c ctx er h1 h2 h3 h4 h5
    simp [sign, sassert, gval, beq_iff_eq, h1, h2, h3, h4, h5, ok_bind, error_bind]
  · intro c ctx er a g0 s x amt rr h1 h2 h3 h4 h5 h6 h7
    simp [sign, sassert, gval, getAssetTransferTxn, beq_iff_eq,
      h1, h2, h3, h4, h5, h6, h7, ok_bind, error_bind]
  · intro c ctx er a g0 s amt rr h1 h2 h3 h4 h5 h6 h7
    simp [sign, sassert, gval, getAssetTransferTxn, beq_iff_eq,
      h1, h2, h3, h4, h5, h6, h7, ok_bind, error_bind]
  · intro c ctx er a g0 s rr h1 h2 h3 h4 h5 h6 h7
    simp [sign, sassert, gval, getAssetTransferTxn, beq_iff_eq,
      h1, h2, h3, h4, h5, h6, h7, ok_bind, error_bind]
  · intro c ctx er a g0 rr h1 h2 h3 h4 h5 h6 h7
    simp [sign, sassert, gval, getAssetTransferTxn, beq_iff_eq,
      h1, h2, h3, h4, h5, h6, h7, ok_bind, error_bind]
  · intro c ctx er a g0 h1 h2 h3 h4 h5 h6
    simp [sign, sassert, gval, getAssetTransferTxn, beq_iff_eq,
      h1, h2, h3, h4, h5, h6, ok_bind, error_bind]

/-- Witness for C2: a concrete successful sign call through the success
branch of the guard order theorem. -/
theorem c2_witness : sign c1ex signCtxEx = .ok c1ex := by
  have h := c2_sign_guard_order.2.2.2.2.2.2.2.2 c1ex signCtxEx 25010 7 (GTxn.appl 9)
  exact h (by rfl) (by rfl) (by decide) (by rfl) (by rfl) (by rfl)


/-- Claim C3: initialize aborts whenever any listed precondition fails:
low bundled payment, short duration, long title, declared content size
outside one to 32768, type tag not exactly 32 nonzero bytes, long url,
or an already initialized instance.  Aborting calls change no state:
in the step semantics only an ok result produces a new configuration. -/
theorem c3_initialize_aborts :
    ∀ c ctx args,
      ((∃ s rcv amt, ctx.group[0]? = some (GTxn.pay s rcv amt) ∧
          amt < MIN_FUNDING) → aborts (initializeOpinion c ctx args)) ∧
      (args.duration < MIN_DURATION → aborts (initializeOpinion c ctx args)) ∧
      (32 < args.title.length → aborts (initializeOpinion c ctx args)) ∧
      ((args.textSize = 0 ∨ 32768 < args.textSize) →
        aborts (initializeOpinion c ctx args)) ∧
      ((args.opinionType.length ≠ 32 ∨ args.opinionType = List.replicate 32 0) →
        aborts (initializeOpinion c ctx args)) ∧
      (96 < args.url.length → aborts (initializeOpinion c ctx args)) ∧
      (c.st.initialized = true → aborts (initializeOpinion c ctx args)) := by
  intro c ctx args
  refine ⟨?_, ?_, ?_, ?_, ?_, ?_, ?_⟩
  · rintro ⟨s, rcv, amt, hpay, hlow⟩
    apply aborts_of_not_ok
    intro out hok
    obtain ⟨_, _, ps, rcv2, amt2, hpay2, hrcv2, hfund, _⟩ :=
      initializeOpinion_eq_ok.mp hok
    obtain ⟨rfl, rfl, rfl⟩ : ps = s ∧ rcv2 = rcv ∧ amt2 = amt := by
      simpa using hpay2.symm.trans hpay
    omega
  · intro hbad
    apply aborts_of_not_ok
    intro out hok
    obtain ⟨_, _, ps, rcv2, amt2, hpay2, hrcv2, hfund, hdur, _⟩ :=
      initializeOpinion_eq_ok.mp hok
    omega
  · intro hbad
    apply aborts_of_not_ok
    intro out hok
    obtain ⟨_, _, ps, rcv2, amt2, hpay2, hrcv2, hfund, hdur, htne, htlen, _⟩ :=
      initializeOpinion_eq_ok.mp hok
    omega
  · intro hbad
    apply aborts_of_not_ok
    intro out hok
    obtain ⟨_, _, ps, rcv2, amt2, hpay2, hrcv2, hfund, hdur, htne, htlen,
      hts0, htsM, _⟩ := initializeOpinion_eq_ok.mp hok
    omega
  · intro hbad
    apply aborts_of_not_ok
    intro out hok
    obtain ⟨_, _, ps, rcv2, amt2, hpay2, hrcv2, hfund, hdur, htne, htlen,
      hts0, htsM, hot32, hotne, _⟩ := initializeOpinion_eq_ok.mp hok
    rcases hbad with hbad | hbad
    · exact hbad hot32
    · exact hotne hbad
  · intro hbad
    apply aborts_of_not_ok
    intro out hok
    obtain ⟨_, _, ps, rcv2, amt2, hpay2, hrcv2, hfund, hdur, htne, htlen,
      hts0, htsM, hot32, hotne, hurl, _⟩ := initializeOpinion_eq_ok.mp hok
    omega
  · intro hbad
    apply aborts_of_not_ok
    intro out hok
    obtain ⟨hninit, _⟩ := initializeOpinion_eq_ok.mp hok
    rw [hbad] at hninit
    exact absurd hninit (by decide)

/-- Witness for C3 at the two spec scenarios: payment 19999999 with
duration 25000, and payment 20000000 with duration 24999. -/
theorem c3_witness :
    aborts (initializeOpinion c0ex initCtxLowPayEx initArgsEx) ∧
    aborts (initializeOpinion c0ex initCtxEx initArgsShortEx) :=
  ⟨(c3_initialize_aborts c0ex initCtxLowPayEx initArgsEx).1
      ⟨3, 2, 19999999, by rfl, by decide⟩,
   (c3_initialize_aborts c0ex initCtxEx initArgsShortEx).2.1 (by decide)⟩

/-- Claim C5: with the Signature Asset resolved, extend succeeds exactly
when the instance is initialized, the caller is the reserve, the opinion
is not finalized, and the new end strictly exceeds the current one; a
non reserve caller gets the not author error, extending to the current
end or below is rejected, and the reserve extending by one succeeds. -/
theorem c5_extend_characterization :
    ∀ c ctx a p er, c.st.asaId = some a → assetLookup c.assets a = some p →
      c.st.endRound = some er →
      (∀ n c', extend c ctx n = .ok c' ↔
        (c.st.initialized = true ∧ ctx.sender = p.reserve ∧
         c.st.finalized = false ∧ er < n ∧
         c' = { c with st := { c.st with endRound := some n } })) ∧
      (c.st.initialized = true → ctx.sender ≠ p.reserve →
        ∀ n, extend c ctx n = .error Err.onlyAuthorCanExtend) ∧
      aborts (extend c ctx er) ∧
      aborts (extend c ctx (er - 1)) ∧
      (c.st.initialized = true → ctx.sender = p.reserve →
        c.st.finalized = false →
        extend c ctx (er + 1) =
          .ok { c with st := { c.st with endRound := some (er + 1) } }) := by
  intro c ctx a p er ha hp her
  have hiff : ∀ n c', extend c ctx n = .ok c' ↔
      (c.st.initialized = true ∧ ctx.sender = p.reserve ∧
       c.st.finalized = false ∧ er < n ∧
       c' = { c with st := { c.st with endRound := some n } }) := by
    intro n c'
    constructor
    · intro h
      obtain ⟨hinit, a0, ha0, p0, hp0, hres, hfin, er0, her0, hlt, hc⟩ :=
        extend_eq_ok.mp h
      obtain rfl : a0 = a := by simpa using ha0.symm.trans ha
      obtain rfl : p0 = p := by simpa using hp0.symm.trans hp
      obtain rfl : er0 = er := by simpa using her0.symm.trans her
      exact ⟨hinit, hres, hfin, hlt, hc.symm⟩
    · rintro ⟨hinit, hres, hfin, hlt, rfl⟩
      exact extend_eq_ok.mpr ⟨hinit, a, ha, p, hp, hres, hfin, er, her, hlt, rfl⟩
  refine ⟨hiff, ?_, ?_, ?_, ?_⟩
  · intro hinit hne n
    simp [extend, sassert, gval, getAsset, beq_iff_eq, ha, hp, hinit, hne,
      ok_bind, error_bind]
  · apply aborts_of_not_ok
    intro c' hok
    obtain ⟨_, _, _, hlt, _⟩ := (hiff er c').mp hok
    omega
  · apply aborts_of_not_ok
    intro c' hok
    obtain ⟨_, _, _, hlt, _⟩ := (hiff (er - 1) c').mp hok
    omega
  · intro hinit hres hfin
    exact (hiff (er + 1) _).mpr ⟨hinit, hres, hfin, by omega, rfl⟩

/-- Witness for C5 at the concrete active instance c1ex: a non reserve
caller is rejected with the not author error and the reserve extending
by one round succeeds. -/
theorem c5_witness :
    extend c1ex { sender := 9 } 30000 = .error Err.onlyAuthorCanExtend ∧
    extend c1ex { sender := 1 } 25011 = .ok c1extEx := by
  have h := c5_extend_characterization c1ex { sender := 9 } 7 asaParamsEx 25010
    (by rfl) (by rfl) (by rfl)
  have h2 := c5_extend_characterization c1ex { sender := 1 } 7 asaParamsEx 25010
    (by rfl) (by rfl) (by rfl)
  exact ⟨h.2.1 (by rfl) (by decide) 30000,
    h2.2.2.2.2 (by rfl) (by rfl) (by rfl)⟩


/-- Claim C6: a successful finalize call by any account requires the
instance initialized, the current round strictly past endRound, and the
flag clear; it emits the asset reconfiguration (manager cleared to the
null account, reserve kept) before the optional payment, sets finalized,
and pays balance minus minimum balance to the caller exactly when that
reward is positive.  Conversely those guards suffice. -/
theorem c6_finalize_effects :
    ∀ c ctx a p, c.st.asaId = some a → assetLookup c.assets a = some p →
      (∀ out, finalize c ctx = .ok out →
        c.st.initialized = true ∧
        (∃ er, c.st.endRound = some er ∧ er < ctx.round) ∧
        c.st.finalized = false ∧
        ctx.minBalance ≤ ctx.balance ∧
        out.1.st.finalized = true ∧
        (∃ q, assetLookup out.1.assets a = some q ∧ q.manager = 0 ∧
          q.reserve = p.reserve) ∧
        out.2 = Itxn.assetConfig a 0 p.reserve 0 0 ::
          (if 0 < ctx.balance - ctx.minBalance then
            [Itxn.payment ctx.sender (ctx.balance - ctx.minBalance)]
          else [])) ∧
      (∀ er, c.st.initialized = true → c.st.endRound = some er →
        er < ctx.round → c.st.finalized = false →
        ctx.minBalance ≤ ctx.balance →
        finalize c ctx = .ok (finPost c ctx a p)) := by
  intro c ctx a p ha hp
  constructor
  · intro out hok
    obtain ⟨hinit, er, her, hround, hfin, a0, ha0, p0, hp0, hbal, hout⟩ :=
      finalize_eq_ok.mp hok
    have haa : a0 = a := by simpa using ha0.symm.trans ha
    have hpp : p0 = p := by
      rw [haa] at hp0
      simpa using hp0.symm.trans hp
    rw [haa, hpp] at hout
    refine ⟨hinit, ⟨er, her, hround⟩, hfin, hbal, ?_, ?_, ?_⟩
    · rw [← hout]
      rfl
    · rw [← hout]
      exact ⟨{ p with manager := 0, freeze := 0, clawback := 0 },
        assetLookup_set _ _ _, rfl, rfl⟩
    · rw [← hout]
      rfl
  · intro er hinit her hround hfin hbal
    exact finalize_eq_ok.mpr ⟨hinit, er, her, hround, hfin, a, ha, p, hp, hbal, rfl⟩

/-- Witness for C6 at the concrete expired instance c1ex. -/
theorem c6_witness :
    finalize c1ex finCtxEx = .ok (finPost c1ex finCtxEx 7 asaParamsEx) :=
  (c6_finalize_effects c1ex finCtxEx 7 asaParamsEx (by rfl) (by rfl)).2 25010
    (by rfl) (by rfl) (by decide) (by rfl) (by decide)

/-- Claim C8, counterexample: setGates accepts a three byte asaHold blob
(length not a multiple of eight) when the asaHold flag bit is not set,
so the claim that a misaligned supplied blob is always rejected fails. -/
theorem c8_counterexample :
    setGates c1ex { sender := 1 } gateArgsMisEx = .ok c1gatesEx ∧
    gateArgsMisEx.asaHold.length % 8 ≠ 0 :=
  ⟨by rfl, by decide⟩

/-- Claim C8 (amended): packing then unpacking any list of identifiers
below 2 to the 64 is the identity, and setGates rejects a misaligned
list blob whenever the corresponding asset list flag bit is set. -/
theorem c8_roundtrip_and_alignment :
    (∀ ids, (∀ x ∈ ids, x < UINT64_LIMIT) →
      unpackUint64Array (packUint64Array ids) = ids) ∧
    (∀ c ctx g c', setGates c ctx g = .ok c' →
      (g.flags &&& 1 ≠ 0 → g.asaHold.length % 8 = 0) ∧
      (g.flags &&& 2 ≠ 0 → g.asaDeny.length % 8 = 0)) := by
  constructor
  · exact fun ids h => unpack_pack h
  · intro c ctx g c' h
    obtain ⟨h1, h2⟩ := setGates_ok_boxes h
    exact ⟨fun hb => (h1 hb).2.1, fun hb => (h2 hb).2.1⟩

/-- Witness for C8 at lists of lengths one, two and one hundred, and at
the concrete aligned setGates call. -/
theorem c8_witness :
    unpackUint64Array (packUint64Array ids1Ex) = ids1Ex ∧
    unpackUint64Array (packUint64Array ids2Ex) = ids2Ex ∧
    unpackUint64Array (packUint64Array ids100Ex) = ids100Ex ∧
    gateArgsHoldEx.asaHold.length % 8 = 0 :=
  ⟨c8_roundtrip_and_alignment.1 ids1Ex (by decide),
   c8_roundtrip_and_alignment.1 ids2Ex (by decide),
   c8_roundtrip_and_alignment.1 ids100Ex (by decide),
   (c8_roundtrip_and_alignment.2 c1ex { sender := 1 } gateArgsHoldEx cGEx
      (by rfl)).1 (by decide)⟩

/-- Claim C10: initialize demands at least two operations (not exactly
two) with the first a sufficient payment to the application address, and
those checks together with the field preconditions are also sufficient,
so extra operations may ride in the same bundle. -/
theorem c10_initialize_group :
    (∀ c ctx args out, initializeOpinion c ctx args = .ok out →
      2 ≤ ctx.group.length ∧
      ∃ s amt, ctx.group[0]? = some (GTxn.pay s ctx.appAddress amt) ∧
        MIN_FUNDING ≤ amt) ∧
    (∀ c ctx args s amt,
      c.st.initialized = false → c.st.opinionText = none →
      2 ≤ ctx.group.length →
      ctx.group[0]? = some (GTxn.pay s ctx.appAddress amt) →
      MIN_FUNDING ≤ amt → MIN_DURATION ≤ args.duration →
      args.title ≠ [] → args.title.length ≤ 32 →
      0 < args.textSize → args.textSize ≤ 32768 →
      args.opinionType.length = 32 → args.opinionType ≠ List.replicate 32 0 →
      args.url.length ≤ 96 → ctx.round + args.duration < UINT64_LIMIT →
      initializeOpinion c ctx args =
        .ok (initPost c ctx args (some (List.replicate args.textSize 0)))) := by
  constructor
  · intro c ctx args out hok
    obtain ⟨_, hlen, ps, rcv, amt, hpay, hrcv, hfund, _⟩ :=
      initializeOpinion_eq_ok.mp hok
    subst hrcv
    exact ⟨hlen, ps, amt, hpay, hfund⟩
  · intro c ctx args s amt h1 h2 h3 h4 h5 h6 h7 h8 h9 h10 h11 h12 h13 h14
    apply initializeOpinion_eq_ok.mpr
    refine ⟨h1, h3, s, ctx.appAddress, amt, h4, rfl, h5, h6, h7, h8, h9, h10,
      h11, h12, h13, h14, some (List.replicate args.textSize 0), ?_, rfl⟩
    simp [boxCreate, h2]

/-- Witness for C10: a three operation bundle (payment, app call, and a
riding extra payment) is accepted by initialize. -/
theorem c10_witness :
    initializeOpinion c0ex initCtx3Ex initArgsEx =
      .ok (initPost c0ex initCtx3Ex initArgsEx (some (List.replicate 1 0))) :=
  c10_initialize_group.2 c0ex initCtx3Ex initArgsEx 3 20000000
    (by rfl) (by rfl) (by decide) (by rfl) (by decide) (by decide) (by decide)
    (by decide) (by decide) (by decide) (by decide) (by decide) (by decide)
    (by decide)

end SignZero
